import Mathlib

/-!
# Verification of the smart-home-system Yeelight session, codec, discovery and MQTT helper

This file gives a shallow embedding, in Lean 4, of the parts of the
`smart-home-system` repository that the specification talks about:

* the wire codec (`Command`, `Method`, `Power`, `Response`, `Notification`,
  `YeelightMessage`) from `yeelight-controller/src/yeelight.rs`;
* the session model (`SessionState`, `newCommand`, `sendMethod`,
  `processIncomingMessage`, the reader loop step) from the same file;
* SSDP-style discovery (`parse`, the `discover` receive loop) from
  `yeelight-controller/src/discovery.rs`;
* the bridge-side MQTT helper (`MqttWrapper.get` / `handle_message`) and the
  bridge-side `Power` parser from `homekit-mqtt-bridge/src/mqtt.rs` and
  `homekit-mqtt-bridge/src/device.rs`.

Pure Rust functions become Lean functions; the stateful session and MQTT
code becomes explicit state passing over small state records, with the
statement order of effects in the Rust source reflected either in the order
of state updates or, where ordering itself is the claim, in an explicit
event trace.  Machine integers (`u64` ids, `u8` brightness) are modelled as
`Nat` (the source never exercises overflow; the spec states overflow of the
id is not a concern).  Fallible code returns `Except`/`Option`.
-/

namespace SmartHome

/-! ## ASCII lowercasing

`str::to_ascii_lowercase` in Rust lowercases ASCII letters only.  We model
it character by character over the string's character data. -/

/-- ASCII-only lowercasing of one character, as Rust's `to_ascii_lowercase`
does it: `'A'..'Z'` is shifted by 32, everything else is untouched. -/
def asciiLowerChar (c : Char) : Char :=
  if 'A' ≤ c ∧ c ≤ 'Z' then Char.ofNat (c.toNat + 32) else c

/-- ASCII-only lowercasing of a string (`str::to_ascii_lowercase`). -/
def asciiLower (s : String) : String :=
  ⟨s.data.map asciiLowerChar⟩

/-! ## Power (`yeelight-controller/src/yeelight.rs`, lines 56-82)

```rust
#[derive(Serialize, Debug)]
#[serde(rename_all = "lowercase")]
pub enum Power { On, Off }
```
-/

inductive Power where
  | on
  | off
deriving DecidableEq, Repr

/-- `impl FromStr for Power` in `yeelight.rs` (lines 63-73): lowercases the
input (ASCII) and accepts exactly `"on"` and `"off"`. -/
def Power.fromStr (s : String) : Except String Power :=
  let l := asciiLower s
  if l = "on" then .ok .on
  else if l = "off" then .ok .off
  else .error ("Invalid power value: " ++ s)

/-- `impl ToString for Power` in `yeelight.rs` (lines 75-82). -/
def Power.toStr : Power → String
  | .on => "on"
  | .off => "off"

/-! ## Bridge-side Power (`homekit-mqtt-bridge/src/device.rs`, lines 186-207)

```rust
pub struct Power(pub bool);
```
with `FromStr` matching the input string exactly (no lowercasing) against
`"on" | "true" | "1"` and `"off" | "false" | "0"`. -/

structure BridgePower where
  state : Bool
deriving DecidableEq, Repr

/-- `impl FromStr for Power` in `homekit-mqtt-bridge/src/device.rs`
(lines 188-198): a case-sensitive match on the six literal spellings. -/
def bridgePowerFromStr (s : String) : Except String BridgePower :=
  if s = "on" ∨ s = "true" ∨ s = "1" then .ok ⟨true⟩
  else if s = "off" ∨ s = "false" ∨ s = "0" then .ok ⟨false⟩
  else .error "Could not parse power state"

/-- `impl ToString for Power` in `homekit-mqtt-bridge/src/device.rs`
(lines 200-207). -/
def bridgePowerToStr (p : BridgePower) : String :=
  if p.state then "on" else "off"

/-! ## JSON values and the serde serialization of commands

A small JSON AST, enough for the shapes the codec produces, plus a compact
renderer matching `serde_json::to_string` output (no spaces). -/

inductive Json where
  | num (n : Nat)
  | str (s : String)
  | arr (elems : List Json)
  | obj (fields : List (String × Json))
deriving Repr

mutual

def Json.render : Json → String
  | .num n => toString n
  | .str s => "\"" ++ s ++ "\""
  | .arr es => "[" ++ Json.renderElems es ++ "]"
  | .obj fs => "\x7b" ++ Json.renderFields fs ++ "\x7d"

def Json.renderElems : List Json → String
  | [] => ""
  | [e] => Json.render e
  | e :: e' :: es => Json.render e ++ "," ++ Json.renderElems (e' :: es)

def Json.renderFields : List (String × Json) → String
  | [] => ""
  | [(k, v)] => "\"" ++ k ++ "\":" ++ Json.render v
  | (k, v) :: f :: fs => "\"" ++ k ++ "\":" ++ Json.render v ++ "," ++ Json.renderFields (f :: fs)

end

/-! ## Method and Command (`yeelight.rs`, lines 18-54)

```rust
#[derive(Serialize)]
pub struct Command { id: Id, #[serde(flatten)] method: Method }

#[derive(Serialize)]
#[serde(tag = "method", rename_all = "snake_case")]
pub enum Method {
    GetProp { params: Vec<String> },
    SetBright { params: (u8, ) },
    SetPower { params: (Power, ) },
    Toggle { params: [(); 0] },
}
```
-/

inductive Method where
  | getProp (params : List String)
  | setBright (brightness : Nat)
  | setPower (power : Power)
  | toggle
deriving DecidableEq, Repr

/-- The serde tag of each `Method` variant: the variant name in
`snake_case`, per `#[serde(tag = "method", rename_all = "snake_case")]`. -/
def Method.methodName : Method → String
  | .getProp _ => "get_prop"
  | .setBright _ => "set_bright"
  | .setPower _ => "set_power"
  | .toggle => "toggle"

/-- The JSON array serialized for the `params` field of each variant:
`Vec<String>` is an array of strings, the one-tuples `(u8,)` / `(Power,)`
are one-element arrays, and `[(); 0]` is the empty array.  `Power`
serializes as its `rename_all = "lowercase"` variant name. -/
def Method.paramsJson : Method → List Json
  | .getProp ps => ps.map Json.str
  | .setBright b => [.num b]
  | .setPower p => [.str p.toStr]
  | .toggle => []

structure Command where
  id : Nat
  method : Method
deriving DecidableEq, Repr

/-- The serde serialization of a `Command` as a JSON value: the `id` field
followed by the flattened `Method` fields (its tag `method`, then
`params`), per `#[serde(flatten)]` on `Command.method`. -/
def Command.toJson (c : Command) : Json :=
  .obj [("id", .num c.id), ("method", .str c.method.methodName),
        ("params", .arr c.method.paramsJson)]

/-- `serde_json::to_vec(&command)` / `to_string`, as a string. -/
def Command.serialize (c : Command) : String :=
  c.toJson.render

/-! ## Responses, notifications and the inbound union (`yeelight.rs`, lines 84-127)

```rust
#[derive(Deserialize)]
#[serde(untagged)]
pub enum YeelightMessage { Response(Response), Notification(Notification) }

pub struct Response { pub id: Id, #[serde(flatten)] pub result: ResponseResult }
pub enum ResponseResult { Success(Vec<String>), Error { code: i64, message: String } }
pub struct Notification { pub method: String, pub params: HashMap<String, Value> }
```
-/

inductive ResponseResult where
  | success (result : List String)
  | error (code : Int) (message : String)
deriving DecidableEq, Repr

structure Response where
  id : Nat
  result : ResponseResult
deriving DecidableEq, Repr

structure Notification where
  method : String
  params : List (String × Json)
deriving Repr

/-- The untagged union decoded from one inbound line: the discriminator on
the wire is presence of `id`. -/
inductive YeelightMessage where
  | response (r : Response)
  | notification (n : Notification)
deriving Repr

/-! ## The session (`yeelight.rs`, lines 129-224)

```rust
pub struct Device {
    current_id: Mutex<Id>,
    write_half: OwnedWriteHalf,
    responses: Arc<DashMap<Id, Sender<Response>>>,
    read_handle: JoinHandle<()>,
}
```

The session state we track is the id counter and the pending-response map.
A map entry is a pair `(id, receiverLive)`: the `DashMap` holds a oneshot
`Sender<Response>` keyed by id, and `receiverLive` records whether the
matching oneshot `Receiver` still exists (it is dropped when the awaiter's
5-second timeout fires and `read_response` returns).  `Device::new` creates
`current_id: Mutex::new(0)` and an empty map. -/

structure SessionState where
  currentId : Nat
  pending : List (Nat × Bool)
deriving DecidableEq, Repr

/-- The state set up by `Device::new` (`yeelight.rs`, lines 143-150):
`current_id` starts at `0`, the pending map starts empty. -/
def Device.initial : SessionState :=
  { currentId := 0, pending := [] }

/-- Is there a pending-map entry keyed by `id`? -/
def SessionState.pendingHas (st : SessionState) (id : Nat) : Bool :=
  st.pending.any (fun e => e.1 = id)

/-- `Device::new_command` (`yeelight.rs`, lines 199-204): lock the counter,
increment it, and build the command with the incremented value. -/
def newCommand (st : SessionState) (m : Method) : Command × SessionState :=
  let id := st.currentId + 1
  (⟨id, m⟩, { st with currentId := id })

/-- The per-command ids produced by `n` successive `new_command` calls on a
session, in call order (the method sent does not influence the id). -/
def issuedIds : Nat → SessionState → List Nat
  | 0, _ => []
  | n + 1, st =>
    let (cmd, st') := newCommand st Method.toggle
    cmd.id :: issuedIds n st'

/-- Errors surfaced by `send_method` / `read_response`: the only error
constructed locally is `Error::new(ErrorKind::TimedOut, ...)`. -/
inductive IoError where
  | timedOut
deriving DecidableEq, Repr

/-- `Device::read_response` (`yeelight.rs`, lines 206-217), one await round:

```rust
let (sender, receiver) = channel();
self.responses.insert(id, sender);
let response = tokio::time::timeout(Duration::from_secs(5), receiver).await;
if let Ok(Ok(response)) = response { return Ok(response); }
Err(Error::new(ErrorKind::TimedOut, "Read response timed out"))
```

The environment's contribution during the await is the `reply` argument:
`some r` means the reader task removed the entry at this id and sent `r`
through the oneshot within the 5-second window (`yeelight.rs`, lines
178-181); `none` means no reply arrived in the window, so the timer fires.
Note that the timeout branch performs no map operation at all: the entry
inserted above stays in the map, only the oneshot receiver is dropped
(modelled by flipping the entry's liveness flag to `false`). -/
def readResponse (st : SessionState) (id : Nat) (reply : Option Response) :
    (Except IoError Response) × SessionState :=
  let inserted := { st with pending := st.pending ++ [(id, true)] }
  match reply with
  | some r =>
    (.ok r, { inserted with
        pending := inserted.pending.filter (fun e => ¬ e.1 = id) })
  | none =>
    (.error .timedOut, { inserted with
        pending := inserted.pending.map
          (fun e => if e.1 = id then (e.1, false) else e) })

/-- `Device::send_method` (`yeelight.rs`, lines 189-197): allocate the next
id, serialize and write the command plus CRLF, flush, then delegate to
`read_response`.  The writes and the flush do not touch the session state
we track; `reply` is as in `readResponse`. -/
def sendMethod (st : SessionState) (m : Method) (reply : Option Response) :
    (Except IoError Response) × SessionState :=
  let (cmd, st1) := newCommand st m
  readResponse st1 cmd.id reply

/-! ### The effect order inside `send_method`

For the temporal claim about where the pending entry is inserted relative
to the socket writes, we record the sequence of effects of one
`send_method` call, in the statement order of the source
(`yeelight.rs`, lines 189-197 then 206-209):

```rust
let command = self.new_command(method).await;            // acquire id
self.write_half.write_all(&serde_json::to_vec(&command)?).await?;  // write bytes
self.write_half.write_all(b"\r\n").await?;               // write CRLF
self.write_half.flush().await?;                          // flush
self.read_response(command.id).await                     // insert entry, await oneshot
```
-/

inductive SendEvent where
  | acquireId (id : Nat)
  | writeBytes
  | writeCrlf
  | flush
  | insertPending (id : Nat)
  | awaitResponse (id : Nat)
deriving DecidableEq, Repr

/-- The effect trace of one `send_method` call that was allocated `id`. -/
def sendMethodEvents (id : Nat) : List SendEvent :=
  [.acquireId id, .writeBytes, .writeCrlf, .flush,
   .insertPending id, .awaitResponse id]

def SendEvent.isFlush : SendEvent → Bool
  | .flush => true
  | _ => false

def SendEvent.isInsert : SendEvent → Bool
  | .insertPending _ => true
  | _ => false

def SendEvent.isAwait : SendEvent → Bool
  | .awaitResponse _ => true
  | _ => false

/-- Index of the first event satisfying `p`, or `none`. -/
def firstPos (p : SendEvent → Bool) : List SendEvent → Option Nat
  | [] => none
  | e :: es => if p e then some 0 else (firstPos p es).map (· + 1)

/-- `some i` is before `some j` when `i < j`; an absent event is before
nothing and after nothing. -/
def posBefore : Option Nat → Option Nat → Bool
  | some i, some j => i < j
  | _, _ => false

/-! ### The reader task -/

/-- What one `process_incoming_message` call (`yeelight.rs`, lines 168-187)
does, beyond updating the map. -/
inductive ReaderEffect where
  | parseErrorLogged
  | delivered (id : Nat)
  | panicked
  | silentlyDropped (id : Nat)
  | notified (n : Notification)
deriving Repr

/-- `Device::process_incoming_message` (`yeelight.rs`, lines 168-187),
taking the already-decoded union (decoding failure is the
`parseErrorLogged` case):

```rust
match message {
    YeelightMessage::Response(response) => {
        if let Some(sender) = wait_map.remove(&response.id) {
            sender.1.send(response).unwrap();
        }
    }
    YeelightMessage::Notification(notification) => {
        notification_handler(notification, client);
    }
}
```

`DashMap::remove` returns the `(key, sender)` pair if present.  A oneshot
`send` fails exactly when the receiver has been dropped, and the `.unwrap()`
on it panics the reader task in that case. -/
def processIncomingMessage (pending : List (Nat × Bool))
    (msg : Except String YeelightMessage) :
    List (Nat × Bool) × ReaderEffect :=
  match msg with
  | .error _ => (pending, .parseErrorLogged)
  | .ok (.response r) =>
    match pending.find? (fun e => e.1 = r.id) with
    | some (_, live) =>
      (pending.filter (fun e => ¬ e.1 = r.id),
       if live then .delivered r.id else .panicked)
    | none => (pending, .silentlyDropped r.id)
  | .ok (.notification n) => (pending, .notified n)

/-- One read of the reader loop (`yeelight.rs`, lines 152-166). -/
inductive ReadEvent where
  | eof
  | ioError
  | line (s : String)
deriving Repr

/-- What the loop body does with that read. -/
inductive LoopStep where
  | continueLoop (processed : Option String)
  | panicExit
deriving Repr

/-- The body of the reader loop (`yeelight.rs`, lines 155-164):

```rust
loop {
    let mut buffer = String::new();
    read_half.read_line(&mut buffer).await.unwrap();
    if buffer.is_empty() { continue; }
    Self::process_incoming_message(&wait_map, &mut buffer, ...);
}
```

`read_line` appends the line *including* its newline, so the buffer is
empty exactly at EOF (0 bytes read); a read error makes the `.unwrap()`
panic.  On EOF the body hits `continue` and loops again; on a proper line
it processes the line and loops again.  There is no `break`/`return`. -/
def readerLoopStep : ReadEvent → LoopStep
  | .ioError => .panicExit
  | .eof => .continueLoop none
  | .line s => .continueLoop (some s)

/-! ## Discovery (`yeelight-controller/src/discovery.rs`)

The datagram parser `parse` (lines 21-43) and the receive loop of
`discover` (lines 45-79).  Rust's `str::lines` splits at `'\n'`, drops a
final empty segment (a trailing newline produces no extra line), and strips
one trailing `'\r'` from every segment that ended at a `'\n'`; we model it
over the string's character data. -/

/-- Split a character list at every occurrence of `c`; the separators are
not kept.  `splitAtChar c [] = [[]]`, matching `"".split('\n') = [""]`. -/
def splitAtChar (c : Char) : List Char → List (List Char)
  | [] => [[]]
  | x :: xs =>
    match splitAtChar c xs with
    | [] => [[]]
    | h :: t => if x = c then [] :: h :: t else (x :: h) :: t

/-- Strip one trailing `'\r'`, as `str::strip_suffix('\r')` does. -/
def stripCr (l : List Char) : List Char :=
  match l.getLast? with
  | some c => if c = '\r' then l.dropLast else l
  | none => l

/-- Rust's `str::lines` over a Lean string: split at `'\n'`, strip a
trailing `'\r'` from every segment that was terminated by a `'\n'`, and
drop the final segment when it is empty (optional final line ending). -/
def linesOf (s : String) : List String :=
  let parts := splitAtChar '\n' s.data
  let terminated := (parts.dropLast.map stripCr).map String.mk
  match parts.getLast? with
  | some [] => terminated
  | some l => terminated ++ [String.mk l]
  | none => terminated

/-- `str::split_once` on a character-list separator: split at the first
occurrence of `sep`, returning the parts before and after it. -/
def splitOnceList (sep : List Char) : List Char → Option (List Char × List Char)
  | [] => none
  | x :: xs =>
    if sep.isPrefixOf (x :: xs) then some ([], (x :: xs).drop sep.length)
    else
      match splitOnceList sep xs with
      | some (pre, post) => some (x :: pre, post)
      | none => none

/-- `line.split_once(": ")` at the string level. -/
def splitOnceColonSpace (line : String) : Option (String × String) :=
  match splitOnceList [':', ' '] line.data with
  | some (pre, post) => some (⟨pre⟩, ⟨post⟩)
  | none => none

structure DiscoveryResponse where
  model : String
  id : String
  location : String
deriving DecidableEq, Repr

/-- The loop body of `parse` (`discovery.rs`, lines 27-36): on a
`Key: Value` line, remember the value under the matching case-sensitive
key (a later occurrence overwrites an earlier one); other lines are
ignored.  The accumulator is `(model, id, location)`. -/
def discoveryStep (acc : Option String × Option String × Option String)
    (line : String) : Option String × Option String × Option String :=
  match splitOnceColonSpace line with
  | some (key, value) =>
    if key = "model" then (some value, acc.2.1, acc.2.2)
    else if key = "id" then (acc.1, some value, acc.2.2)
    else if key = "Location" then (acc.1, acc.2.1, some value)
    else acc
  | none => acc

/-- `discovery::parse` (`discovery.rs`, lines 21-43): scan the lines, then
require all three of `model`, `id`, `Location`; the error messages are the
`context` strings of the source, checked in the source's order. -/
def discoveryParse (response : String) : Except String DiscoveryResponse :=
  match (linesOf response).foldl discoveryStep (none, none, none) with
  | (some m, some i, some l) => .ok ⟨m, i, l⟩
  | (none, _, _) => .error "No model found in response"
  | (_, none, _) => .error "No id found in response"
  | (_, _, none) => .error "No location found in response"

/-- The receive loop of `discover` (`discovery.rs`, lines 56-74), run over
the sequence of datagrams that arrive before the window closes: parse each
datagram; on success, skip it if the accumulated vector already `contains`
an equal response, otherwise push it; on failure, log and go on. -/
def discoverLoop : List String → List DiscoveryResponse → List DiscoveryResponse
  | [], acc => acc
  | d :: ds, acc =>
    match discoveryParse d with
    | .ok r => if r ∈ acc then discoverLoop ds acc else discoverLoop ds (acc ++ [r])
    | .error _ => discoverLoop ds acc

/-- `discover(timeout)` restricted to what it returns: the loop starting
from the empty vector (`discovery.rs`, lines 54 and 76-78). -/
def discoverModel (datagrams : List String) : List DiscoveryResponse :=
  discoverLoop datagrams []

/-! ## Bridge-side MQTT helper (`homekit-mqtt-bridge/src/mqtt.rs`)

```rust
pub struct MqttWrapper {
    client: AsyncClient,
    get_channels: Arc<DashMap<String, oneshot::Sender<Message>>>,
    channels: Arc<DashMap<String, broadcast::Sender<Message>>>,
}
```

As for the session, a `get_channels` entry is `(topic, receiverLive)`;
`channels` we track as the set of topics that have a subscriber broadcast
channel. -/

structure MqttState where
  getChannels : List (String × Bool)
  channels : List String
deriving Repr

def MqttState.getChannelFor (st : MqttState) (topic : String) : Bool :=
  st.getChannels.any (fun e => e.1 = topic)

/-- What one `handle_message` call does with the message, beyond updating
the map. -/
inductive MqttAction where
  | fulfilled (topic : String)
  | warnedDropped (topic : String)
  | dispatched (topic : String)
  | ignored
deriving DecidableEq, Repr

/-- `MqttWrapper::handle_message` (`mqtt.rs`, lines 67-83):

```rust
if let Some((_, mut sender)) = self.get_channels.remove(topic) {
    if let Err(_) = sender.send(message) { warn!("sender dropped") }
    return;
}
if let Some(sender) = self.channels.get(topic) { ... }
```

A `get_channels` entry always wins and the function returns without
consulting `channels`; a failed oneshot send (receiver dropped) is only
warned about. -/
def handleMessage (st : MqttState) (topic : String) : MqttState × MqttAction :=
  match st.getChannels.find? (fun e => e.1 = topic) with
  | some (_, live) =>
    ({ st with getChannels := st.getChannels.filter (fun e => ¬ e.1 = topic) },
     if live then .fulfilled topic else .warnedDropped topic)
  | none =>
    if st.channels.any (fun t => t = topic) then (st, .dispatched topic)
    else (st, .ignored)

/-- `MqttWrapper::get` (`mqtt.rs`, lines 40-53) in the case where the
5-second timer fires with no reply: the oneshot sender is inserted under
`response_topic` (a `DashMap::insert`, replacing any previous entry), the
empty get-payload is published, the await times out, and the function
returns `Err(())` *without removing the entry*; the oneshot receiver is
dropped when the function returns (liveness flag `false`). -/
def getTimedOut (st : MqttState) (responseTopic : String) : MqttState :=
  { st with
      getChannels :=
        (st.getChannels.filter (fun e => ¬ e.1 = responseTopic))
          ++ [(responseTopic, false)] }

/-! ## Spec-side comparison definitions

Independent readings of what the spec says the discovery code computes,
to be compared with the definitions translated from the source. -/

/-- Spec-side reading of a header block: the retained value of one
case-sensitive header key is the value of the last `Key: Value` line
carrying that key (the source's loop overwrites on repeats), starting from
a given initial value.  Written as a single-key scan, independent of the
three-accumulator loop of `discovery::parse`. -/
def specHeaderValueFrom (key : String) (init : Option String)
    (ls : List String) : Option String :=
  ls.foldl (fun acc line =>
    match splitOnceColonSpace line with
    | some (k, v) => if k = key then some v else acc
    | none => acc) init

/-- The retained value of a header key over a header block, spec-side. -/
def specHeaderValue (key : String) (ls : List String) : Option String :=
  specHeaderValueFrom key none ls

/-- Spec-side first-arrival deduplication: keep each distinct element once,
at the position of its first occurrence. -/
def dedupFirst {α : Type} [DecidableEq α] : List α → List α
  | [] => []
  | x :: xs => x :: dedupFirst (xs.filter (fun y => ¬ y = x))
termination_by l => l.length
decreasing_by
  simp only [List.length_cons]
  exact Nat.lt_succ_of_le (List.length_filter_le _ _)

/-- The datagrams that parse, as parsed responses, in arrival order. -/
def discoveryParseOpt (d : String) : Option DiscoveryResponse :=
  (discoveryParse d).toOption

/-! ## Theorems -/

/-- Claim C1, counterexample.  The claim says that when no response arrives
within the 5-second timer, `send_method` returns `Timeout` *and* the
timeout branch removes the pending-map entry for the command's id, so that
afterwards the map holds no entry for that id.  On the very first command
of a fresh session (id 1, here a `toggle`) with no reply, the call does
return the timeout error, but the entry keyed 1 is still in the map when
the call returns: the timeout branch of `read_response` (`yeelight.rs`,
lines 210-216) performs no `remove`. -/
theorem c1_counterexample :
    (sendMethod Device.initial Method.toggle none).1 = .error .timedOut
    ∧ ¬ ((sendMethod Device.initial Method.toggle none).2.pendingHas 1 = false) :=
  ⟨rfl, by decide⟩

/-- Claim C1, amended.  For every call of `send_method` whose awaited
response does not arrive within the 5-second timer, the call returns the
timeout error, but the pending-response map entry for that command's id is
*not* removed by the timeout branch: after the call returns the map still
holds the entry for that id (with its oneshot receiver dropped). -/
theorem c1_timeout_keeps_pending_entry (st : SessionState) (m : Method) :
    (sendMethod st m none).1 = .error .timedOut
    ∧ (sendMethod st m none).2.pendingHas (st.currentId + 1) = true := by
  refine ⟨rfl, ?_⟩
  simp [sendMethod, newCommand, readResponse, SessionState.pendingHas]

/-- Claim C2, code evaluated at the failing input.  A `Response` for id 1
arrives while the pending map holds the entry for id 1 with its awaiter
gone (the awaiter timed out, so the oneshot receiver was dropped — exactly
the map state `c1_timeout_keeps_pending_entry` shows a timeout leaves
behind).  `process_incoming_message` removes the entry, the oneshot `send`
fails because the receiver is gone, and the `.unwrap()` on it panics the
reader task (`yeelight.rs`, line 180) — the reply is *not* silently
discarded and the reader does not survive it.  Only a response whose id
has no map entry at all is silently dropped (second conjunct). -/
theorem c2_late_reply_panics_reader :
    processIncomingMessage [(1, false)] (.ok (.response ⟨1, .success ["ok"]⟩))
      = ([], .panicked)
    ∧ processIncomingMessage [] (.ok (.response ⟨1, .success ["ok"]⟩))
      = ([], .silentlyDropped 1) :=
  ⟨rfl, rfl⟩

/-- Claim C3, counterexample.  The claim says the pending-map entry is
inserted before the command bytes are flushed.  In the effect trace of a
`send_method` call (id 1), the first `insertPending` event is *not* before
the `flush` event: `send_method` writes and flushes first and only then
calls `read_response`, which does the insert (`yeelight.rs`, lines 192-196
and 207-208). -/
theorem c3_counterexample :
    posBefore (firstPos SendEvent.isInsert (sendMethodEvents 1))
        (firstPos SendEvent.isFlush (sendMethodEvents 1)) = false :=
  rfl

/-- Claim C3, amended.  In every execution of `send_method`, the
pending-response map entry is inserted *after* the command bytes are
written and flushed (at the start of `read_response`), and before the
oneshot is awaited; the command is always flushed while no entry for its
id exists yet. -/
theorem c3_insert_after_flush_before_await (id : Nat) :
    posBefore (firstPos SendEvent.isFlush (sendMethodEvents id))
        (firstPos SendEvent.isInsert (sendMethodEvents id)) = true
    ∧ posBefore (firstPos SendEvent.isInsert (sendMethodEvents id))
        (firstPos SendEvent.isAwait (sendMethodEvents id)) = true :=
  ⟨rfl, rfl⟩

/-- Claim C4, code evaluated at the failing input.  The claim says the
reader loop exits on socket EOF (a read yielding no bytes).  It does not:
`read_line` returns `Ok(0)` at EOF, the buffer is empty, and the body hits
`continue` (`yeelight.rs`, lines 159-161), so the loop runs again
immediately — the reader busy-loops on a closed socket instead of exiting.
A read error does make it exit (by the panic of the `.unwrap()` on line
157), and a proper line is processed and the loop continues. -/
theorem c4_eof_does_not_exit :
    readerLoopStep .eof = .continueLoop none
    ∧ readerLoopStep .ioError = .panicExit
    ∧ ∀ s, readerLoopStep (.line s) = .continueLoop (some s) :=
  ⟨rfl, rfl, fun _ => rfl⟩

/-- Ids issued from an arbitrary session state: `n` successive
`new_command` calls return `currentId + 1, currentId + 2, ...`. -/
theorem issuedIds_eq (n : Nat) (st : SessionState) :
    issuedIds n st = (List.range n).map (fun i => st.currentId + 1 + i) := by
  induction n generalizing st with
  | zero => rfl
  | succ n ih =>
    simp only [issuedIds, newCommand, ih, List.range_succ_eq_map,
      List.map_cons, List.map_map, List.cons.injEq]
    refine ⟨trivial, ?_⟩
    apply List.map_congr_left
    intro i _
    simp only [Function.comp_apply]
    omega

/-- Claim C5.  For every sequence of commands issued on a single session,
the ids attached to the commands are exactly `1, 2, ..., n` in order:
unique, strictly increasing starting from 1, and id 0 is never assigned
(`current_id` starts at 0 in `Device::new` and `new_command` increments it
before building each command). -/
theorem c5_ids_strictly_increasing_from_one (n : Nat) :
    issuedIds n Device.initial = (List.range n).map (fun i => i + 1)
    ∧ (issuedIds n Device.initial).Nodup
    ∧ List.Chain' (· < ·) (issuedIds n Device.initial)
    ∧ 0 ∉ issuedIds n Device.initial := by
  have h : issuedIds n Device.initial = (List.range n).map (fun i => i + 1) := by
    rw [issuedIds_eq]
    apply List.map_congr_left
    intro i _
    simp [Device.initial]
    omega
  refine ⟨h, ?_, ?_, ?_⟩
  · rw [h]
    exact (List.nodup_range n).map (fun a b => by omega)
  · rw [h]
    exact ((List.pairwise_lt_range n).map _ (fun a b hab => by omega)).chain'
  · rw [h]
    simp

/-- Claim C6, counterexample.  The claim says MQTT-side `Power` parsing
accepts all six spellings `on`/`off`/`true`/`false`/`1`/`0`
case-insensitively.  Neither parser in the code does: the controller-side
parser (`yeelight.rs`, lines 63-73), the one `handle_mqtt_set_power` uses,
rejects `"true"` (it only knows `on`/`off`), and the bridge-side parser
(`homekit-mqtt-bridge/src/device.rs`, lines 188-198) knows the six
spellings but matches case-sensitively, rejecting `"ON"`. -/
theorem c6_counterexample :
    (Power.fromStr "true").isOk = false
    ∧ (bridgePowerFromStr "ON").isOk = false := by
  decide

/-- Claim C6, amended.  Controller-side (MQTT `power/set`) `Power` parsing
accepts exactly `on`/`off`, case-insensitively (ASCII); bridge-side `Power`
parsing accepts exactly the six spellings `on`/`off`/`true`/`false`/`1`/`0`,
case-sensitively; and both wire serializations of `Power` emit only the
lowercase strings `"on"` and `"off"`. -/
theorem c6_power_parsing_characterization :
    (∀ s, (Power.fromStr s).isOk = true
        ↔ (asciiLower s = "on" ∨ asciiLower s = "off"))
    ∧ (∀ s, (bridgePowerFromStr s).isOk = true
        ↔ (s = "on" ∨ s = "true" ∨ s = "1"
            ∨ s = "off" ∨ s = "false" ∨ s = "0"))
    ∧ (∀ p : Power, p.toStr = "on" ∨ p.toStr = "off")
    ∧ (∀ b : BridgePower, bridgePowerToStr b = "on" ∨ bridgePowerToStr b = "off") := by
  refine ⟨?_, ?_, ?_, ?_⟩
  · intro s
    simp only [Power.fromStr]
    split_ifs <;> simp_all [Except.isOk, Except.toBool]
  · intro s
    simp only [bridgePowerFromStr]
    split_ifs <;> (simp_all [Except.isOk, Except.toBool]; try tauto)
  · intro p
    cases p <;> simp [Power.toStr]
  · intro b
    rcases b with ⟨_ | _⟩ <;> simp [bridgePowerToStr]

/-- Claim C7.  The serialization of a `Command` is a single JSON object
`{"id":N,"method":"<snake_case>","params":[...]}`: the `params` field is
always a JSON array (the empty array for `Toggle`), the method tag is the
snake_case variant name (`get_prop`, `set_bright`, `set_power`, `toggle`),
and `Power` values serialize to the lowercase strings `"on"`/`"off"`.  The
four concrete strings are the exact vectors of the repository's own
`test_command_generate_json_packet` test (`yeelight.rs`, lines 238-264). -/
theorem c7_command_serialization :
    (∀ c : Command, ∃ ps : List Json, c.toJson =
        .obj [("id", .num c.id), ("method", .str c.method.methodName),
              ("params", .arr ps)])
    ∧ Method.paramsJson .toggle = []
    ∧ (∀ ps, Method.methodName (.getProp ps) = "get_prop")
    ∧ (∀ b, Method.methodName (.setBright b) = "set_bright")
    ∧ (∀ p, Method.methodName (.setPower p) = "set_power")
    ∧ Method.methodName .toggle = "toggle"
    ∧ (∀ p : Power, Method.paramsJson (.setPower p) = [.str p.toStr])
    ∧ Power.on.toStr = "on" ∧ Power.off.toStr = "off"
    ∧ Command.serialize ⟨1, .setPower .on⟩
        = "\x7b\"id\":1,\"method\":\"set_power\",\"params\":[\"on\"]\x7d"
    ∧ Command.serialize ⟨1, .setBright 50⟩
        = "\x7b\"id\":1,\"method\":\"set_bright\",\"params\":[50]\x7d"
    ∧ Command.serialize ⟨1, .getProp ["power"]⟩
        = "\x7b\"id\":1,\"method\":\"get_prop\",\"params\":[\"power\"]\x7d"
    ∧ Command.serialize ⟨1, .toggle⟩
        = "\x7b\"id\":1,\"method\":\"toggle\",\"params\":[]\x7d" :=
  ⟨fun c => ⟨c.method.paramsJson, rfl⟩, rfl, fun _ => rfl, fun _ => rfl,
   fun _ => rfl, rfl, fun _ => rfl, rfl, rfl, rfl, rfl, rfl, rfl⟩

/-- First component of the `parse` scan: the `model` accumulator tracks
the last `model: ...` line. -/
theorem foldl_discoveryStep_model (ls : List String)
    (a : Option String × Option String × Option String) :
    (ls.foldl discoveryStep a).1 = specHeaderValueFrom "model" a.1 ls := by
  induction ls generalizing a with
  | nil => rfl
  | cons l ls ih =>
    simp only [List.foldl_cons, specHeaderValueFrom] at *
    rw [ih]
    congr 1
    simp only [discoveryStep]
    split
    · split_ifs <;> simp_all
    · rfl

/-- Second component of the `parse` scan: the `id` accumulator tracks the
last `id: ...` line. -/
theorem foldl_discoveryStep_id (ls : List String)
    (a : Option String × Option String × Option String) :
    (ls.foldl discoveryStep a).2.1 = specHeaderValueFrom "id" a.2.1 ls := by
  induction ls generalizing a with
  | nil => rfl
  | cons l ls ih =>
    simp only [List.foldl_cons, specHeaderValueFrom] at *
    rw [ih]
    congr 1
    simp only [discoveryStep]
    split
    · split_ifs <;> simp_all
    · rfl

/-- Third component of the `parse` scan: the `location` accumulator tracks
the last `Location: ...` line. -/
theorem foldl_discoveryStep_location (ls : List String)
    (a : Option String × Option String × Option String) :
    (ls.foldl discoveryStep a).2.2 = specHeaderValueFrom "Location" a.2.2 ls := by
  induction ls generalizing a with
  | nil => rfl
  | cons l ls ih =>
    simp only [List.foldl_cons, specHeaderValueFrom] at *
    rw [ih]
    congr 1
    simp only [discoveryStep]
    split
    · split_ifs <;> simp_all
    · rfl

/-- The `parse` scan computes exactly the three retained header values. -/
theorem foldl_discoveryStep_eq (r : String) :
    (linesOf r).foldl discoveryStep (none, none, none)
      = (specHeaderValue "model" (linesOf r), specHeaderValue "id" (linesOf r),
         specHeaderValue "Location" (linesOf r)) :=
  Prod.ext (foldl_discoveryStep_model (linesOf r) (none, none, none))
    (Prod.ext (foldl_discoveryStep_id (linesOf r) (none, none, none))
      (foldl_discoveryStep_location (linesOf r) (none, none, none)))

/-- Claim C8.  Parsing one discovery datagram splits it into lines (on
`\r\n` or `\n`), reads `Key: Value` lines at the two-character separator
`": "`, and retains the values of the case-sensitive keys `model`, `id`
and `Location`: it succeeds exactly when all three are present (returning
their retained values) and fails when any is missing.  The concrete
datagram of scenario S6 yields exactly
`DiscoveryResponse{model:"color", id:"0x1", location:"yeelight://10.0.0.5:55443"}`. -/
theorem c8_discovery_parse :
    discoveryParse
        "HTTP/1.1 200 OK\r\nLocation: yeelight://10.0.0.5:55443\r\nid: 0x1\r\nmodel: color\r\n"
      = .ok ⟨"color", "0x1", "yeelight://10.0.0.5:55443"⟩
    ∧ (∀ r m i l, discoveryParse r = .ok ⟨m, i, l⟩ ↔
        (specHeaderValue "model" (linesOf r) = some m
          ∧ specHeaderValue "id" (linesOf r) = some i
          ∧ specHeaderValue "Location" (linesOf r) = some l))
    ∧ (∀ r, (discoveryParse r).isOk = true ↔
        ((specHeaderValue "model" (linesOf r)).isSome
          ∧ (specHeaderValue "id" (linesOf r)).isSome
          ∧ (specHeaderValue "Location" (linesOf r)).isSome)) := by
  refine ⟨rfl, ?_, ?_⟩
  · intro r m i l
    simp only [discoveryParse, foldl_discoveryStep_eq r, specHeaderValue]
    rcases hm : specHeaderValueFrom "model" none (linesOf r) with _ | m0 <;>
      rcases hi : specHeaderValueFrom "id" none (linesOf r) with _ | i0 <;>
      rcases hl : specHeaderValueFrom "Location" none (linesOf r) with _ | l0 <;>
      simp_all [DiscoveryResponse.mk.injEq]
  · intro r
    simp only [discoveryParse, foldl_discoveryStep_eq r, specHeaderValue]
    rcases hm : specHeaderValueFrom "model" none (linesOf r) with _ | m0 <;>
      rcases hi : specHeaderValueFrom "id" none (linesOf r) with _ | i0 <;>
      rcases hl : specHeaderValueFrom "Location" none (linesOf r) with _ | l0 <;>
      simp_all [Except.isOk, Except.toBool]

/-- Membership in a first-arrival dedup is membership in the original
list. -/
theorem mem_dedupFirst {α : Type} [DecidableEq α] (l : List α) (a : α) :
    a ∈ dedupFirst l ↔ a ∈ l := by
  induction l using dedupFirst.induct with
  | case1 => simp [dedupFirst]
  | case2 x xs ih =>
    rw [dedupFirst]
    simp only [decide_not] at ih
    by_cases hax : a = x
    · simp [hax]
    · simp [hax, ih, List.mem_filter]

/-- A first-arrival dedup has no duplicates. -/
theorem nodup_dedupFirst {α : Type} [DecidableEq α] (l : List α) :
    (dedupFirst l).Nodup := by
  induction l using dedupFirst.induct with
  | case1 => simp [dedupFirst]
  | case2 x xs ih =>
    rw [dedupFirst]
    refine List.nodup_cons.mpr ⟨?_, ih⟩
    intro hx
    rw [mem_dedupFirst] at hx
    simp [List.mem_filter] at hx

/-- A first-arrival dedup is empty exactly for the empty list. -/
theorem dedupFirst_nil_iff {α : Type} [DecidableEq α] (l : List α) :
    dedupFirst l = [] ↔ l = [] := by
  cases l with
  | nil => simp [dedupFirst]
  | cons x xs => simp [dedupFirst]

/-- Fusion of the `discover` receive loop: running the source's
parse-check-push loop from any accumulator appends exactly the
first-arrival dedup of the parseable datagrams not already accumulated. -/
theorem discoverLoop_eq (ds : List String) (acc : List DiscoveryResponse) :
    discoverLoop ds acc
      = acc ++ dedupFirst ((ds.filterMap discoveryParseOpt).filter
          (fun r => ¬ r ∈ acc)) := by
  induction ds generalizing acc with
  | nil => simp [discoverLoop, dedupFirst]
  | cons d ds ih =>
    rw [discoverLoop]
    rcases hp : discoveryParse d with e | r
    · have hopt : discoveryParseOpt d = none := by
        simp [discoveryParseOpt, hp, Except.toOption]
      simp only [List.filterMap_cons, hopt]
      exact ih acc
    · have hopt : discoveryParseOpt d = some r := by
        simp [discoveryParseOpt, hp, Except.toOption]
      simp only [List.filterMap_cons, hopt]
      by_cases hmem : r ∈ acc
      · simp only [hmem, if_true]
        rw [ih acc]
        congr 2
        simp only [List.filter_cons]
        simp [hmem]
      · simp only [hmem, if_false]
        rw [ih (acc ++ [r])]
        simp only [List.filter_cons]
        simp only [hmem, decide_not, List.append_assoc, List.singleton_append,
          decide_False, Bool.not_false, if_true]
        rw [dedupFirst]
        congr 2
        rw [List.filter_filter]
        congr 1
        apply List.filter_congr
        intro y _
        by_cases hy : y = r <;> by_cases hya : y ∈ acc <;>
          simp [hy, hya, List.mem_append]

/-- Claim C9.  For every sequence of datagrams received during one
`discover(timeout)` window, the returned list is exactly the first-arrival
dedup of the datagrams that parse: it contains no duplicate
`DiscoveryResponse` (duplicates judged by structural equality of the
`model`/`id`/`location` triple), preserves the order of first arrival of
each distinct triple, and is empty exactly when no parseable response
arrived in the window. -/
theorem c9_discover_dedup (ds : List String) :
    (discoverModel ds).Nodup
    ∧ discoverModel ds = dedupFirst (ds.filterMap discoveryParseOpt)
    ∧ (discoverModel ds = [] ↔ ds.filterMap discoveryParseOpt = []) := by
  have h : discoverModel ds = dedupFirst (ds.filterMap discoveryParseOpt) := by
    have h0 := discoverLoop_eq ds []
    simpa [discoverModel] using h0
  refine ⟨?_, h, ?_⟩
  · rw [h]
    exact nodup_dedupFirst _
  · rw [h, dedupFirst_nil_iff]

/-- A `find?` skips a block none of whose elements satisfy the
predicate. -/
theorem find?_append_of_none {α : Type} (p : α → Bool) (l1 l2 : List α)
    (h : ∀ x ∈ l1, p x = false) :
    List.find? p (l1 ++ l2) = List.find? p l2 := by
  induction l1 with
  | nil => rfl
  | cons x xs ih =>
    simp only [List.cons_append, List.find?]
    rw [h x (by simp)]
    exact ih (fun y hy => h y (by simp [hy]))

/-- Claim C10.  After a bridge-side `get(get_topic, reply_topic)` call
times out, its oneshot sender stays in the get-channels map (first
conjunct); the next inbound MQTT message on `reply_topic` makes
`handle_message` remove that stale entry (third conjunct) and attempt to
fulfil the dropped receiver, which fails and is only warned about (second
conjunct), and `handle_message` then returns without dispatching the
message to any subscriber channel registered for that topic (fourth
conjunct) — that message is lost to subscribers. -/
theorem c10_stale_get_entry_swallows_message (st : MqttState) (topic : String) :
    (getTimedOut st topic).getChannelFor topic = true
    ∧ (handleMessage (getTimedOut st topic) topic).2 = .warnedDropped topic
    ∧ (handleMessage (getTimedOut st topic) topic).1.getChannelFor topic = false
    ∧ ¬ (handleMessage (getTimedOut st topic) topic).2 = .dispatched topic := by
  have hfind : List.find? (fun e => decide (e.1 = topic))
      ((st.getChannels.filter (fun e => ¬ e.1 = topic)) ++ [(topic, false)])
      = some (topic, false) := by
    rw [find?_append_of_none]
    · simp [List.find?]
    · intro x hx
      simp only [List.mem_filter, decide_not] at hx
      simpa using hx.2
  refine ⟨?_, ?_, ?_, ?_⟩
  · simp [getTimedOut, MqttState.getChannelFor]
  · simp only [handleMessage, getTimedOut, hfind]
    simp
  · simp only [handleMessage, getTimedOut, hfind]
    simp [MqttState.getChannelFor, List.any_eq_true, List.mem_filter]
  · simp only [handleMessage, getTimedOut, hfind]
    simp

end SmartHome
